import Mathlib

/-!
Shallow embedding of `src/lock_free_stack.h` (template class `LockFreeStack<T>`).

The C++ class keeps three pieces of shared state:
  * `head`            : atomic pointer to the top node of the main list;
  * `to_be_deleted`   : atomic pointer to the pending-deletion list;
  * `threads_in_pop`  : atomic `int`, the in-flight-pop counter.

We embed the two intrusive singly linked lists as Lean lists of nodes (a
node's `next` pointer is the list structure), and the counter as an `Int`
(the source uses `int`).  Two ghost fields, `allocatedCount` and
`freedCount`, count node allocations (`new node(data)` in `push`) and node
deallocations (`delete` in `try_reclaim` / `delete_nodes`); `nextId` is a
ghost source of fresh node identities standing for distinct heap addresses.

A single atomic step of another thread can interleave with `try_reclaim`
between its `to_be_deleted.exchange(nullptr)` and its `--threads_in_pop`.
That interference is made explicit by two parameters threaded through
`try_reclaim` and `pop`:
  * `arrivals`   : how many other pop calls executed `++threads_in_pop`
                   inside that window and are still in flight at the
                   decrement;
  * `newPending` : the nodes those other pops appended onto the (just
                   emptied) pending-deletion list inside that window.
A purely sequential call is `arrivals = 0`, `newPending = []` (`popSeq`).

Fallible steps return `Option`: `none` models a fault, namely the null
pointer dereference `last->next` in `chain_pending_nodes(node*)` when the
argument is `nullptr`.
-/

/-- A heap node of `LockFreeStack<T>`: `id` is its (ghost) heap identity,
`data` its `std::shared_ptr<T>` payload (`none` = the empty shared pointer,
i.e. a handle that has been swapped out). The `next` field of the C++
struct is represented by the position of the node in a Lean list. -/
structure Node (T : Type) where
  id : Nat
  data : Option T
  deriving Repr, DecidableEq

/-- The shared state of one `LockFreeStack<T>` object, plus ghost
allocation accounting. -/
structure StackState (T : Type) where
  head : List (Node T)
  to_be_deleted : List (Node T)
  threads_in_pop : Int
  allocatedCount : Nat
  freedCount : Nat
  nextId : Nat
  deriving Repr, DecidableEq

/-- The constructor `LockFreeStack() : head(nullptr)`. The member
initializer list sets only `head`; the atomic members `threads_in_pop` and
`to_be_deleted` are default-constructed, which value-initializes them to
zero / null (`std::atomic` value-initializes since C++20, P0883). The two
`std::cout` diagnostics in the constructor body do not touch stack state
and are not modelled. -/
def construct (T : Type) : StackState T :=
  { head := []
    to_be_deleted := []
    threads_in_pop := 0
    allocatedCount := 0
    freedCount := 0
    nextId := 0 }

/-- `push(T const& data)`: `new node(data)` allocates a fresh node whose
`data` member is `std::make_shared<T>(data_)` and links it in front of the
current head via the `compare_exchange_weak` retry loop, which terminates
exactly when the new node has been spliced on top. -/
def push (v : T) (s : StackState T) : StackState T :=
  { s with
    head := { id := s.nextId, data := some v } :: s.head
    allocatedCount := s.allocatedCount + 1
    nextId := s.nextId + 1 }

/-- `chain_pending_nodes(node* nodes)` / `chain_pending_nodes(node* one)`:
walk `last = nodes; while (last->next) last = last->next;` to the tail,
then CAS-splice the sublist in front of the current pending-deletion list.
With a null argument the very first `last->next` dereferences a null
pointer: modelled as the fault `none`. -/
def chain_pending_nodes (nodes : List (Node T)) (pending : List (Node T)) :
    Option (List (Node T)) :=
  match nodes with
  | [] => none
  | _ :: _ => some (nodes ++ pending)

/-- `try_reclaim(node* old_head)`, executed from state `s` (already
including this pop's own `++threads_in_pop`).

If `threads_in_pop == 1` at the initial check: `delete old_head` (a no-op
for `nullptr`), `to_be_deleted.exchange(nullptr)` takes the whole pending
list, then `--threads_in_pop` is tested; in the window between the
exchange and the decrement, `arrivals` other pops enter and append
`newPending` onto the emptied pending list. If the decrement reaches zero,
`delete_nodes` frees every taken node; otherwise the taken nodes (if any)
are chained back in front of the current pending list.

Otherwise: `chain_pending_nodes(old_head)` — which dereferences a null
`old_head` — then `--threads_in_pop`. -/
def try_reclaim (old_head : Option (Node T)) (arrivals : Nat)
    (newPending : List (Node T)) (s : StackState T) :
    Option (StackState T) :=
  if s.threads_in_pop = 1 then
    if s.threads_in_pop + (arrivals : Int) - 1 = 0 then
      some { s with
        freedCount := s.freedCount + (if old_head.isSome then 1 else 0)
          + s.to_be_deleted.length
        to_be_deleted := newPending
        threads_in_pop := s.threads_in_pop + (arrivals : Int) - 1 }
    else if s.to_be_deleted.isEmpty then
      some { s with
        freedCount := s.freedCount + (if old_head.isSome then 1 else 0)
        to_be_deleted := newPending
        threads_in_pop := s.threads_in_pop + (arrivals : Int) - 1 }
    else
      some { s with
        freedCount := s.freedCount + (if old_head.isSome then 1 else 0)
        to_be_deleted := s.to_be_deleted ++ newPending
        threads_in_pop := s.threads_in_pop + (arrivals : Int) - 1 }
  else
    match old_head with
    | none => none
    | some n =>
      some { s with
        to_be_deleted := n :: s.to_be_deleted
        threads_in_pop := s.threads_in_pop + (arrivals : Int) - 1 }

/-- `pop()`: `++threads_in_pop`; load `head`; the CAS retry loop either
detaches the top node or exits with `old_head == nullptr`; on a detached
node, `res.swap(old_head->data)` moves the payload out (leaving the node's
own handle empty); then `try_reclaim(old_head)`; return `res`.
The returned `shared_ptr<T>` is `Option T` (`none` = the "empty"
indicator); the outer `Option` is `none` exactly when the call faults
inside `try_reclaim`. -/
def pop (arrivals : Nat) (newPending : List (Node T)) (s : StackState T) :
    Option (Option T × StackState T) :=
  let s0 := { s with threads_in_pop := s.threads_in_pop + 1 }
  match s0.head with
  | [] =>
    (try_reclaim none arrivals newPending s0).map (fun s1 => (none, s1))
  | n :: rest =>
    (try_reclaim (some { n with data := none }) arrivals newPending
        { s0 with head := rest }).map
      (fun s1 => (n.data, s1))

/-- A `pop()` call with no other pop interleaved (the sequential case). -/
def popSeq (s : StackState T) : Option (Option T × StackState T) :=
  pop 0 [] s

/-- `k` successive sequential `pop()` calls, collecting the returned
shared pointers; stops early on a fault (which never happens
sequentially). -/
def popN : Nat → StackState T → List (Option T) × StackState T
  | 0, s => ([], s)
  | Nat.succ k, s =>
    match popSeq s with
    | none => ([], s)
    | some (r, s1) =>
      let p := popN k s1
      (r :: p.1, p.2)

/-- Pushing a list of values one after the other, first element first. -/
def pushList (vs : List T) (s : StackState T) : StackState T :=
  vs.foldl (fun s v => push v s) s

/-- `push` either allocates (`new node(data)` succeeds) and completes, or
the allocation throws `std::bad_alloc` before any stack state is touched:
the exception propagates with the state exactly as it was. -/
inductive PushResult (T : Type) where
  | ok (s : StackState T)
  | allocFailure (s : StackState T)
  deriving Repr, DecidableEq

/-- `push` with an explicit allocation outcome: `new node(data)` is the
first statement of `push`, so when it throws, no field of the stack has
been written yet. -/
def pushAlloc (allocOk : Bool) (v : T) (s : StackState T) : PushResult T :=
  if allocOk then .ok (push v s) else .allocFailure s

/-! ### Basic computation lemmas for sequential pops -/

/-- A sequential pop from a freshly constructed stack returns the empty
shared pointer and restores the initial state exactly. -/
theorem popSeq_construct (T : Type) :
    popSeq (construct T) = some (none, construct T) := rfl

/-- A sequential pop from an empty stack: the counter goes 0 → 1 → 0, the
pending-deletion list is drained (taken and freed), head stays empty. -/
theorem popSeq_nil (s : StackState T) (hc : s.threads_in_pop = 0)
    (hh : s.head = []) :
    popSeq s = some (none,
      { s with to_be_deleted := [], threads_in_pop := 0,
               freedCount := s.freedCount + s.to_be_deleted.length }) := by
  simp [popSeq, pop, try_reclaim, hh, hc]

/-- A sequential pop from a non-empty stack detaches the top node, frees
it, and drains the pending-deletion list. -/
theorem popSeq_cons (s : StackState T) (n : Node T) (rest : List (Node T))
    (hc : s.threads_in_pop = 0) (hh : s.head = n :: rest) :
    popSeq s = some (n.data,
      { s with head := rest, to_be_deleted := [], threads_in_pop := 0,
               freedCount := s.freedCount + 1 + s.to_be_deleted.length }) := by
  simp [popSeq, pop, try_reclaim, hh, hc]

/-! ### Claim theorems: construction, empty pops, allocation failure -/

/-- C3: `construct()` yields an empty stack: head is empty (so the first
pop returns the empty shared pointer), the pending-deletion list is empty,
and the in-flight-pop counter is zero. -/
theorem C3_construct_empty : ∀ (T : Type),
    (construct T).head = [] ∧ (construct T).to_be_deleted = [] ∧
    (construct T).threads_in_pop = 0 ∧
    popSeq (construct T) = some (none, construct T) :=
  fun _ => ⟨rfl, rfl, rfl, rfl⟩

/-- C5: pop on a freshly constructed stack returns the "empty" indicator,
and any number of repeated pops keeps returning "empty" without fault and
without changing the stack state. -/
theorem C5_empty_pop_idempotent : ∀ (T : Type) (k : Nat),
    popN k (construct T) = (List.replicate k none, construct T) := by
  intro T k
  induction k with
  | zero => rfl
  | succ k ih => simp [popN, popSeq_construct, ih, List.replicate_succ]

/-- C2 (code bug exhibit): pop on an empty stack while one other pop is in
flight (counter 1 at entry, hence 2 after the increment) takes the
`threads_in_pop != 1` branch of `try_reclaim`, which calls
`chain_pending_nodes(old_head)` with `old_head == nullptr` and
dereferences `last->next` on the null pointer: the call faults instead of
retiring the counter and returning the "no value" result. -/
theorem C2_empty_pop_concurrent_fault :
    pop 0 [] ({ head := [], to_be_deleted := [], threads_in_pop := 1,
                allocatedCount := 0, freedCount := 0, nextId := 0 } :
        StackState Nat) = none := rfl

/-- C6: `new node(data)` is the first statement of `push`, so an
allocation failure propagates with the stack state untouched, and a
successful allocation is the only path to the (always successful, mutation
completing) push; there is no other failure mode of `push`. -/
theorem C6_push_allocation_atomicity : ∀ (T : Type) (v : T) (s : StackState T),
    pushAlloc false v s = PushResult.allocFailure s ∧
    pushAlloc true v s = PushResult.ok (push v s) ∧
    (push v s).head = { id := s.nextId, data := some v } :: s.head :=
  fun _ _ _ => ⟨rfl, rfl, rfl⟩

/-! ### Counter balance and reclamation disposition -/

/-- Every successful `try_reclaim` leaves `head` untouched and performs
exactly one decrement of the counter on top of the `arrivals` increments
made by other pops during its window. -/
theorem try_reclaim_head_counter (old_head : Option (Node T)) (arrivals : Nat)
    (nP : List (Node T)) (s s' : StackState T)
    (h : try_reclaim old_head arrivals nP s = some s') :
    s'.head = s.head ∧ s'.threads_in_pop = s.threads_in_pop + arrivals - 1 := by
  unfold try_reclaim at h
  split at h
  · split at h
    · injection h with h1; subst h1; exact ⟨rfl, rfl⟩
    · split at h
      · injection h with h1; subst h1; exact ⟨rfl, rfl⟩
      · injection h with h1; subst h1; exact ⟨rfl, rfl⟩
  · cases old_head with
    | none => exact absurd h (by simp)
    | some n => injection h with h1; subst h1; exact ⟨rfl, rfl⟩

/-- C9 (amended): every `pop` call that runs to completion increments the
counter exactly once at entry and decrements it exactly once before
returning: the counter after the call equals the counter before it plus
the increments of the `arrivals` other pops that entered during the call;
sequentially (`arrivals = 0`) it returns to its pre-call value. -/
theorem C9_counter_balance : ∀ (T : Type) (s : StackState T) (arrivals : Nat)
    (nP : List (Node T)) (r : Option T) (s' : StackState T),
    pop arrivals nP s = some (r, s') →
    s'.threads_in_pop = s.threads_in_pop + arrivals := by
  intro T s arrivals nP r s' h
  unfold pop at h
  cases hh : s.head with
  | nil =>
    simp only [hh] at h
    rw [Option.map_eq_some'] at h
    obtain ⟨s1, hr, he⟩ := h
    have h2 := (try_reclaim_head_counter _ _ _ _ _ hr).2
    injection he with he1 he2
    subst he2
    simp only at h2
    omega
  | cons n rest =>
    simp only [hh] at h
    rw [Option.map_eq_some'] at h
    obtain ⟨s1, hr, he⟩ := h
    have h2 := (try_reclaim_head_counter _ _ _ _ _ hr).2
    injection he with he1 he2
    subst he2
    simp only at h2
    omega

/-- C9 witness: a completing sequential pop leaves the counter at its
pre-call value. -/
theorem C9_counter_balance_witness :
    (construct Nat).threads_in_pop = (construct Nat).threads_in_pop + (0 : Nat) :=
  C9_counter_balance Nat (construct Nat) 0 [] none (construct Nat) rfl

/-- C9 counterexample: the claim as stated — every control path of `pop`
decrements the counter once before returning — fails on the control path
"empty stack while other pops are in flight": there `pop` faults on a null
dereference before any decrement, so it never returns a balanced state. -/
theorem C9_counterexample :
    pop 0 [] ({ head := [], to_be_deleted := [{ id := 5, data := none }],
                threads_in_pop := 2, allocatedCount := 1, freedCount := 0,
                nextId := 6 } : StackState Nat) = none := rfl

/-- C4: with the counter exactly one at evaluation, `try_reclaim` frees
the just-detached node, takes the whole pending-deletion list (replacing
it with empty), then decrements the counter. If the decrement reached zero
(no other pop entered: `arrivals = 0`), every taken node is freed;
otherwise none of the taken nodes is freed and all of them are re-linked
onto the pending-deletion list, so no taken node is lost or freed in the
non-zero case. -/
theorem C4_reclaim_disposition : ∀ (T : Type) (s : StackState T) (n : Node T)
    (arrivals : Nat) (nP : List (Node T)),
    s.threads_in_pop = 1 →
    ∃ s', try_reclaim (some n) arrivals nP s = some s' ∧
      s'.head = s.head ∧
      s'.threads_in_pop = (arrivals : Int) ∧
      (arrivals = 0 →
        s'.freedCount = s.freedCount + 1 + s.to_be_deleted.length ∧
        s'.to_be_deleted = nP) ∧
      (arrivals ≠ 0 →
        s'.freedCount = s.freedCount + 1 ∧
        s'.to_be_deleted = s.to_be_deleted ++ nP) := by
  intro T s n arrivals nP hc
  unfold try_reclaim
  rw [if_pos hc]
  by_cases ha : arrivals = 0
  · subst ha
    rw [if_pos (by rw [hc]; omega)]
    exact ⟨_, rfl, rfl, by simp [hc], fun _ => ⟨by simp, rfl⟩,
      fun hne => absurd rfl hne⟩
  · rw [if_neg (by rw [hc]; omega)]
    by_cases he : s.to_be_deleted.isEmpty
    · rw [if_pos he]
      refine ⟨_, rfl, rfl,
        by show s.threads_in_pop + (arrivals : Int) - 1 = arrivals; rw [hc]; omega,
        fun h0 => absurd h0 ha, fun _ => ?_⟩
      rw [List.isEmpty_iff] at he
      exact ⟨by simp, by simp [he]⟩
    · rw [if_neg he]
      exact ⟨_, rfl, rfl,
        by show s.threads_in_pop + (arrivals : Int) - 1 = arrivals; rw [hc]; omega,
        fun h0 => absurd h0 ha, fun _ => ⟨by simp, rfl⟩⟩

/-- A concrete reclamation state: one node already pending, counter one. -/
def reclaimDemoState : StackState Nat :=
  { head := [], to_be_deleted := [{ id := 0, data := none }],
    threads_in_pop := 1, allocatedCount := 3, freedCount := 0, nextId := 3 }

/-- C4 witness: a concrete reclamation with one pending node and one other
pop arriving in the window: the detached node is freed, the taken node is
re-linked, nothing is lost. -/
theorem C4_reclaim_disposition_witness :
    ∃ s', try_reclaim (some { id := 1, data := (none : Option Nat) }) 1
        [{ id := 2, data := none }] reclaimDemoState = some s' ∧
      s'.head = reclaimDemoState.head ∧
      s'.threads_in_pop = ((1 : Nat) : Int) ∧
      ((1 : Nat) = 0 →
        s'.freedCount = reclaimDemoState.freedCount + 1
          + reclaimDemoState.to_be_deleted.length ∧
        s'.to_be_deleted = [{ id := 2, data := none }]) ∧
      ((1 : Nat) ≠ 0 →
        s'.freedCount = reclaimDemoState.freedCount + 1 ∧
        s'.to_be_deleted = reclaimDemoState.to_be_deleted
          ++ [{ id := 2, data := none }]) :=
  C4_reclaim_disposition Nat reclaimDemoState { id := 1, data := none } 1
    [{ id := 2, data := none }] rfl

/-! ### The sequential LIFO law -/

/-- Draining lemma: from a state whose head holds exactly the payloads
`ds` (all live) with no pop in flight, `ds.length + 1` sequential pops
return the payloads in head order followed by the "empty" indicator. -/
theorem popN_drain : ∀ (ds : List T) (s : StackState T),
    s.threads_in_pop = 0 →
    s.head.map (fun n => n.data) = ds.map some →
    (popN (ds.length + 1) s).1 = ds.map some ++ [none] := by
  intro ds
  induction ds with
  | nil =>
    intro s hc hh
    simp only [List.map_nil] at hh
    rw [List.map_eq_nil_iff] at hh
    simp [popN, popSeq_nil s hc hh]
  | cons d ds ih =>
    intro s hc hh
    cases hd : s.head with
    | nil => rw [hd] at hh; simp at hh
    | cons n rest =>
      rw [hd] at hh
      simp only [List.map_cons, List.cons.injEq] at hh
      obtain ⟨hn, hrest⟩ := hh
      have hp := popSeq_cons s n rest hc hd
      show (popN (ds.length + 1 + 1) s).1 = _
      rw [popN, hp, hn]
      simp only [List.map_cons, List.cons_append, List.cons.injEq, true_and]
      exact ih _ rfl hrest

/-- `pushList` leaves the counter alone and stacks the pushed payloads in
reverse order on top of the previous head. -/
theorem pushList_head_counter : ∀ (vs : List T) (s : StackState T),
    (pushList vs s).head.map (fun n => n.data)
      = vs.reverse.map some ++ s.head.map (fun n => n.data) ∧
    (pushList vs s).threads_in_pop = s.threads_in_pop := by
  intro vs
  induction vs with
  | nil => intro s; exact ⟨by simp [pushList], rfl⟩
  | cons v vs ih =>
    intro s
    have h1 : pushList (v :: vs) s = pushList vs (push v s) := rfl
    rw [h1]
    obtain ⟨ha, hb⟩ := ih (push v s)
    refine ⟨?_, hb⟩
    rw [ha]
    simp [push]

/-- C1: sequential LIFO law. Pushing `v1, ..., vn` on a fresh stack and
then popping `n + 1` times returns `vn, ..., v1` and then the explicit
"no value" result. -/
theorem C1_sequential_lifo : ∀ (T : Type) (vs : List T),
    (popN (vs.length + 1) (pushList vs (construct T))).1
      = vs.reverse.map some ++ [none] := by
  intro T vs
  obtain ⟨ha, hb⟩ := pushList_head_counter vs (construct T)
  have := popN_drain vs.reverse (pushList vs (construct T)) hb
    (by simpa [construct] using ha)
  simpa using this

/-! ### Teardown: the destructor `while (pop());` -/

/-- A sequential pop that returns a value strictly shrinks the main list:
needed for the termination of the destructor's drain loop. -/
theorem popSeq_some_head_lt (s : StackState T) (v : T) (s1 : StackState T)
    (h : popSeq s = some (some v, s1)) : s1.head.length < s.head.length := by
  unfold popSeq pop at h
  cases hd : s.head with
  | nil =>
    simp only [hd] at h
    rw [Option.map_eq_some'] at h
    obtain ⟨s2, hr, he⟩ := h
    injection he with he1 he2
    exact absurd he1 (by simp)
  | cons n rest =>
    simp only [hd] at h
    rw [Option.map_eq_some'] at h
    obtain ⟨s2, hr, he⟩ := h
    injection he with he1 he2
    subst he2
    have hhead := (try_reclaim_head_counter _ _ _ _ _ hr).1
    rw [hhead]
    simp

/-- The destructor `~LockFreeStack() { while (pop()); }`: sequential pops
until one returns the empty shared pointer (that last pop still runs its
reclamation, draining the pending-deletion list). A faulting pop (which
cannot happen sequentially) stops the loop as well. -/
def destroy (s : StackState T) : StackState T :=
  match h : popSeq s with
  | none => s
  | some (none, s1) => s1
  | some (some _, s1) => destroy s1
termination_by s.head.length
decreasing_by exact popSeq_some_head_lt _ _ _ h

/-- Unfolding `destroy` when the pop returns the empty indicator. -/
theorem destroy_of_empty_pop (s s1 : StackState T)
    (h : popSeq s = some (none, s1)) : destroy s = s1 := by
  rw [destroy]
  split
  · rename_i hx; rw [hx] at h; exact absurd h (by simp)
  · rename_i s2 hx; rw [hx] at h; injection h with h1; injection h1 with h2 h3
  · rename_i v s2 hx
    rw [hx] at h
    injection h with h1
    injection h1 with h2 h3
    exact absurd h2 (by simp)

/-- Unfolding `destroy` when the pop returns a value. -/
theorem destroy_of_value_pop (s s1 : StackState T) (v : T)
    (h : popSeq s = some (some v, s1)) : destroy s = destroy s1 := by
  rw [destroy]
  split
  · rename_i hx; rw [hx] at h; exact absurd h (by simp)
  · rename_i s2 hx
    rw [hx] at h
    injection h with h1
    injection h1 with h2 h3
    exact absurd h2 (by simp)
  · rename_i w s2 hx
    rw [hx] at h
    injection h with h1
    injection h1 with h2 h3
    subst h3
    rfl

/-- Sequential teardown fully drains both lists and frees one node per
main-list element plus every node sitting on the pending-deletion list,
without allocating anything. -/
theorem destroy_drain : ∀ (hd : List (Node T)) (s : StackState T),
    s.head = hd → s.threads_in_pop = 0 → (∀ n ∈ hd, n.data.isSome) →
    (destroy s).head = [] ∧ (destroy s).to_be_deleted = [] ∧
    (destroy s).threads_in_pop = 0 ∧
    (destroy s).allocatedCount = s.allocatedCount ∧
    (destroy s).freedCount
      = s.freedCount + hd.length + s.to_be_deleted.length := by
  intro hd
  induction hd with
  | nil =>
    intro s hh hc _
    rw [destroy_of_empty_pop s _ (popSeq_nil s hc hh)]
    simp [hh]
  | cons n rest ih =>
    intro s hh hc hl
    obtain ⟨v, hv⟩ := Option.isSome_iff_exists.mp (hl n (by simp))
    have hp := popSeq_cons s n rest hc hh
    rw [hv] at hp
    rw [destroy_of_value_pop s _ v hp]
    obtain ⟨h1, h2, h3, h4, h5⟩ := ih
      { s with head := rest, to_be_deleted := [], threads_in_pop := 0,
               freedCount := s.freedCount + 1 + s.to_be_deleted.length }
      rfl rfl (fun m hm => hl m (by simp [hm]))
    refine ⟨h1, h2, h3, h4, ?_⟩
    rw [h5]
    simp only [List.length_cons, List.length_nil]
    omega

/-- C7: synchronized teardown. From any state with no pop in flight,
every main-list node live, and the allocation balance
`allocated = freed + |main list| + |pending list|` (which holds in every
reachable quiescent state), the destructor drains the stack and frees
every remaining node: afterwards both lists are empty and the number of
nodes ever freed equals the number ever allocated. -/
theorem C7_teardown_no_leaks : ∀ (T : Type) (s : StackState T),
    s.threads_in_pop = 0 →
    (∀ n ∈ s.head, n.data.isSome) →
    s.allocatedCount = s.freedCount + s.head.length + s.to_be_deleted.length →
    (destroy s).head = [] ∧ (destroy s).to_be_deleted = [] ∧
    (destroy s).freedCount = (destroy s).allocatedCount := by
  intro T s hc hl hb
  obtain ⟨h1, h2, _, h4, h5⟩ := destroy_drain s.head s rfl hc hl
  exact ⟨h1, h2, by omega⟩

/-- A concrete pre-teardown state: one live node on the stack and one
already-detached node waiting on the pending-deletion list. -/
def teardownDemoState : StackState Nat :=
  { head := [{ id := 0, data := some 5 }],
    to_be_deleted := [{ id := 1, data := none }],
    threads_in_pop := 0, allocatedCount := 2, freedCount := 0, nextId := 2 }

/-- C7 witness: tearing down the concrete state frees both the stacked
node and the pending node: two allocated, two freed, nothing left. -/
theorem C7_teardown_no_leaks_witness :
    (destroy teardownDemoState).head = [] ∧
    (destroy teardownDemoState).to_be_deleted = [] ∧
    (destroy teardownDemoState).freedCount
      = (destroy teardownDemoState).allocatedCount :=
  C7_teardown_no_leaks Nat teardownDemoState rfl (by decide) rfl

/-! ### The structural invariant of the two lists -/

/-- The spec's invariant set, plus the auxiliary freshness facts that make
it inductive: the main list and the pending-deletion list are
id-disjoint; main-list nodes hold live value handles; pending nodes have
had their handles swapped out; node identities are duplicate-free and
below the allocation ghost counter. -/
def FullInv (s : StackState T) : Prop :=
  (∀ n ∈ s.head, ∀ m ∈ s.to_be_deleted, n.id ≠ m.id) ∧
  (∀ n ∈ s.head, n.data.isSome = true) ∧
  (∀ m ∈ s.to_be_deleted, m.data = none) ∧
  (s.head.map (fun n => n.id)).Nodup ∧
  (s.to_be_deleted.map (fun n => n.id)).Nodup ∧
  (∀ n ∈ s.head, n.id < s.nextId) ∧
  (∀ m ∈ s.to_be_deleted, m.id < s.nextId)

/-- What the nodes appended to the pending-deletion list by other pop
calls during this call's reclamation window look like: each was detached
from the main list by exactly one other pop (so it is none of this
stack's current nodes and no duplicate) and had its value handle swapped
out before being handed to reclamation. -/
def PendingProvenance (nP : List (Node T)) (s : StackState T) : Prop :=
  (∀ m ∈ nP, m.data = none) ∧
  (nP.map (fun n => n.id)).Nodup ∧
  (∀ m ∈ nP, m.id < s.nextId) ∧
  (∀ m ∈ nP, ∀ n ∈ s.head, m.id ≠ n.id) ∧
  (∀ m ∈ nP, ∀ k ∈ s.to_be_deleted, m.id ≠ k.id)

/-- Successful `try_reclaim` leaves `head` and `nextId` alone and
produces one of three pending-deletion lists: the window appends alone
(taken nodes all freed), the taken nodes re-linked in front of the window
appends, or — on the deferred path — the detached node pushed onto the
unchanged pending list. -/
theorem try_reclaim_pending_cases (s : StackState T) (old : Option (Node T))
    (arrivals : Nat) (nP : List (Node T)) (s1 : StackState T)
    (hr : try_reclaim old arrivals nP s = some s1) :
    s1.head = s.head ∧ s1.nextId = s.nextId ∧
    (s1.to_be_deleted = nP ∨ s1.to_be_deleted = s.to_be_deleted ++ nP ∨
      ∃ n, old = some n ∧ s1.to_be_deleted = n :: s.to_be_deleted) := by
  unfold try_reclaim at hr
  split at hr
  · split at hr
    · injection hr with h1; subst h1; exact ⟨rfl, rfl, Or.inl rfl⟩
    · split at hr
      · injection hr with h1; subst h1; exact ⟨rfl, rfl, Or.inl rfl⟩
      · injection hr with h1; subst h1; exact ⟨rfl, rfl, Or.inr (Or.inl rfl)⟩
  · cases old with
    | none => exact absurd hr (by simp)
    | some n =>
      injection hr with h1; subst h1
      exact ⟨rfl, rfl, Or.inr (Or.inr ⟨n, rfl, rfl⟩)⟩

/-- `push` preserves the invariant: the freshly allocated node carries a
live handle and a brand-new identity. -/
theorem push_preserves_fullInv (v : T) (s : StackState T)
    (h : FullInv s) : FullInv (push v s) := by
  obtain ⟨hdisj, hlive, hrel, hnodH, hnodP, hbH, hbP⟩ := h
  refine ⟨?_, ?_, ?_, ?_, ?_, ?_, ?_⟩
  · intro n hn m hm
    simp only [push, List.mem_cons] at hn hm
    cases hn with
    | inl he => subst he; exact fun hc => absurd hc.symm (Nat.ne_of_lt (hbP m hm))
    | inr hn => exact hdisj n hn m hm
  · intro n hn
    simp only [push, List.mem_cons] at hn
    cases hn with
    | inl he => subst he; rfl
    | inr hn => exact hlive n hn
  · exact hrel
  · simp only [push, List.map_cons, List.nodup_cons]
    refine ⟨?_, hnodH⟩
    intro hc
    rw [List.mem_map] at hc
    obtain ⟨m, hm, hid⟩ := hc
    exact absurd hid (Nat.ne_of_lt (hbH m hm))
  · exact hnodP
  · intro n hn
    simp only [push, List.mem_cons] at hn
    cases hn with
    | inl he => subst he; exact Nat.lt_succ_self _
    | inr hn => exact Nat.lt_succ_of_lt (hbH n hn)
  · intro m hm
    exact Nat.lt_succ_of_lt (hbP m hm)

/-- `pop` preserves the invariant, for any reclamation-window interference
whose appended nodes have the provenance other pop calls guarantee. -/
theorem pop_preserves_fullInv (s : StackState T) (arrivals : Nat)
    (nP : List (Node T)) (r : Option T) (s' : StackState T)
    (hinv : FullInv s) (hprov : PendingProvenance nP s)
    (h : pop arrivals nP s = some (r, s')) : FullInv s' := by
  obtain ⟨hdisj, hlive, hrel, hnodH, hnodP, hbH, hbP⟩ := hinv
  obtain ⟨p1, p2, p3, p4, p5⟩ := hprov
  unfold pop at h
  cases hh : s.head with
  | nil =>
    simp only [hh] at h
    rw [Option.map_eq_some'] at h
    obtain ⟨s1, hr, he⟩ := h
    injection he with he1 he2
    subst he2
    obtain ⟨q1, q2, q3⟩ := try_reclaim_pending_cases _ _ _ _ _ hr
    refine ⟨?_, ?_, ?_, ?_, ?_, ?_, ?_⟩
    · intro x hx; rw [q1] at hx; exact absurd hx (List.not_mem_nil x)
    · intro x hx; rw [q1] at hx; exact absurd hx (List.not_mem_nil x)
    · intro m hm
      rcases q3 with hq | hq | hq
      · rw [hq] at hm; exact p1 m hm
      · rw [hq, List.mem_append] at hm
        cases hm with
        | inl hm => exact hrel m hm
        | inr hm => exact p1 m hm
      · obtain ⟨k, hk, _⟩ := hq; exact absurd hk (by simp)
    · rw [q1]; simp
    · rcases q3 with hq | hq | hq
      · rw [hq]; exact p2
      · rw [hq, List.map_append, List.nodup_append]
        refine ⟨hnodP, p2, ?_⟩
        intro x hx1 hx2
        rw [List.mem_map] at hx1 hx2
        obtain ⟨k, hk, hkid⟩ := hx1
        obtain ⟨m, hm, hmid⟩ := hx2
        exact p5 m hm k hk (hmid.trans hkid.symm)
      · obtain ⟨k, hk, _⟩ := hq; exact absurd hk (by simp)
    · intro x hx; rw [q1] at hx; exact absurd hx (List.not_mem_nil x)
    · intro m hm
      rw [q2]
      rcases q3 with hq | hq | hq
      · rw [hq] at hm; exact p3 m hm
      · rw [hq, List.mem_append] at hm
        cases hm with
        | inl hm => exact hbP m hm
        | inr hm => exact p3 m hm
      · obtain ⟨k, hk, _⟩ := hq; exact absurd hk (by simp)
  | cons n rest =>
    simp only [hh] at h
    rw [Option.map_eq_some'] at h
    obtain ⟨s1, hr, he⟩ := h
    injection he with he1 he2
    subst he2
    obtain ⟨q1, q2, q3⟩ := try_reclaim_pending_cases _ _ _ _ _ hr
    have hnH : n ∈ s.head := by rw [hh]; exact List.mem_cons_self n rest
    have hliveR : ∀ x ∈ rest, x.data.isSome = true :=
      fun x hx => hlive x (by rw [hh]; exact List.mem_cons_of_mem n hx)
    have hbR : ∀ x ∈ rest, x.id < s.nextId :=
      fun x hx => hbH x (by rw [hh]; exact List.mem_cons_of_mem n hx)
    rw [hh, List.map_cons, List.nodup_cons] at hnodH
    obtain ⟨hnid, hnodR⟩ := hnodH
    refine ⟨?_, ?_, ?_, ?_, ?_, ?_, ?_⟩
    · intro x hx m hm
      rw [q1] at hx
      rcases q3 with hq | hq | hq
      · rw [hq] at hm
        exact (p4 m hm x (by rw [hh]; exact List.mem_cons_of_mem n hx)).symm
      · rw [hq, List.mem_append] at hm
        cases hm with
        | inl hm => exact hdisj x (by rw [hh]; exact List.mem_cons_of_mem n hx) m hm
        | inr hm => exact (p4 m hm x (by rw [hh]; exact List.mem_cons_of_mem n hx)).symm
      · obtain ⟨k, hk, hq2⟩ := hq
        injection hk with hk1
        rw [hq2] at hm
        cases hm with
        | head =>
          intro hc
          apply hnid
          rw [← hk1] at hc
          rw [List.mem_map]
          exact ⟨x, hx, hc⟩
        | tail _ hm =>
          exact hdisj x (by rw [hh]; exact List.mem_cons_of_mem n hx) m hm
    · intro x hx; rw [q1] at hx; exact hliveR x hx
    · intro m hm
      rcases q3 with hq | hq | hq
      · rw [hq] at hm; exact p1 m hm
      · rw [hq, List.mem_append] at hm
        cases hm with
        | inl hm => exact hrel m hm
        | inr hm => exact p1 m hm
      · obtain ⟨k, hk, hq2⟩ := hq
        injection hk with hk1
        rw [hq2] at hm
        cases hm with
        | head => rw [← hk1]
        | tail _ hm => exact hrel m hm
    · rw [q1]; exact hnodR
    · rcases q3 with hq | hq | hq
      · rw [hq]; exact p2
      · rw [hq, List.map_append, List.nodup_append]
        refine ⟨hnodP, p2, ?_⟩
        intro x hx1 hx2
        rw [List.mem_map] at hx1 hx2
        obtain ⟨k, hk, hkid⟩ := hx1
        obtain ⟨m, hm, hmid⟩ := hx2
        exact p5 m hm k hk (hmid.trans hkid.symm)
      · obtain ⟨k, hk, hq2⟩ := hq
        injection hk with hk1
        rw [hq2, List.map_cons, List.nodup_cons, ← hk1]
        refine ⟨?_, hnodP⟩
        intro hc
        rw [List.mem_map] at hc
        obtain ⟨m, hm, hmid⟩ := hc
        exact hdisj n hnH m hm hmid.symm
    · intro x hx
      rw [q1] at hx
      rw [q2]
      exact hbR x hx
    · intro m hm
      rw [q2]
      rcases q3 with hq | hq | hq
      · rw [hq] at hm; exact p3 m hm
      · rw [hq, List.mem_append] at hm
        cases hm with
        | inl hm => exact hbP m hm
        | inr hm => exact p3 m hm
      · obtain ⟨k, hk, hq2⟩ := hq
        injection hk with hk1
        rw [hq2] at hm
        cases hm with
        | head => rw [← hk1]; exact hbH n hnH
        | tail _ hm => exact hbP m hm

/-- C8: the spec's invariant set — (i) the main list never contains a node
also present in the pending-deletion list, (ii) every node reachable from
head holds a live value handle, (iii) every node on the pending-deletion
list has had its handle swapped out — is established by `construct` and
preserved by `push` and by `pop` (including its reclamation step), for
any interference whose appended pending nodes come from other pop calls.
`FullInv` states (i)–(iii) as its first three conjuncts together with the
identity-freshness facts that make the invariant inductive. -/
theorem C8_invariant_preserved :
    (∀ (T : Type), FullInv (construct T)) ∧
    (∀ (T : Type) (v : T) (s : StackState T), FullInv s → FullInv (push v s)) ∧
    (∀ (T : Type) (s : StackState T) (arrivals : Nat) (nP : List (Node T))
      (r : Option T) (s' : StackState T),
      FullInv s → PendingProvenance nP s → pop arrivals nP s = some (r, s') →
      FullInv s') :=
  ⟨fun T => by unfold FullInv construct; simp,
   fun _ v s h => push_preserves_fullInv v s h,
   fun _ s a nP r s' h1 h2 h3 => pop_preserves_fullInv s a nP r s' h1 h2 h3⟩

/-- A concrete mid-run state: two live nodes stacked, one node pending,
nobody mid-pop. -/
def invariantDemoState : StackState Nat :=
  { head := [{ id := 0, data := some 7 }, { id := 1, data := some 8 }],
    to_be_deleted := [{ id := 2, data := none }],
    threads_in_pop := 0, allocatedCount := 3, freedCount := 0, nextId := 4 }

/-- C8 witness: popping the concrete state while one other pop arrives in
the reclamation window and appends one detached node keeps the invariant:
the taken pending node is re-linked next to the newly appended one. -/
theorem C8_invariant_preserved_witness :
    FullInv ({ head := [{ id := 1, data := some 8 }],
               to_be_deleted := [{ id := 2, data := none },
                                 { id := 3, data := none }],
               threads_in_pop := 1, allocatedCount := 3, freedCount := 1,
               nextId := 4 } : StackState Nat) :=
  C8_invariant_preserved.2.2 Nat invariantDemoState 1
    [{ id := 3, data := none }] (some 7) _
    (by unfold FullInv invariantDemoState; decide)
    (by unfold PendingProvenance invariantDemoState; decide)
    (by decide)
